import Mathlib

/-!
Verification development for the GridCARE ETL transform stage (main.py).

The development shallowly embeds the two non-trivial components of the
source: the city-name resolver (standardize_city inside
_standardize_geography) and the site-potential scorer
(_calculate_site_potential_score together with _haversine_distance and
_clean_data).

Modelling conventions:
- Python strings are Lean String values; a possibly-missing string field
  is Option String (None / NaN on an object column become none).
- The fuzzywuzzy similarity fuzz.ratio is modelled exactly as the
  python-Levenshtein backend computes it: the insert/delete edit
  distance (substitution cost 2), turned into the integer score
  round(100 * (lensum - dist) / lensum) with round-half-to-even, which
  is what the float computation produces for the string lengths that
  occur here.  process.extractOne applies the default full_process
  preprocessor (non-alphanumeric to space, lowercase, strip) to query
  and choices and keeps the first choice attaining the maximal score,
  exactly as the Python max over the generator does.
- Python floats are modelled by the type PF: either a real number or
  nan.  Arithmetic propagates nan; division by zero yields nan (in the
  source the only reachable zero denominator is the 0/0 of a degenerate
  capacity batch, which is nan in IEEE arithmetic); comparisons against
  nan are false, so the Python expression max(0, x) maps nan to 0.
  Transcendental float functions are idealised as their real
  counterparts.
- pandas column arithmetic is elementwise, modelled as List.map /
  List.zipWith over the column lists; Series.max and Series.min skip
  nan entries, modelled by folds that ignore nan.
-/

set_option maxRecDepth 100000

/- ========== Reference Catalog (city_mappings, main.py lines 66-76) ========== -/

def city_mappings : List (String × String) :=
  [("SF", "San Francisco"),
   ("San Francisco", "San Francisco"),
   ("San Mateo", "San Mateo"),
   ("San Mateo County", "San Mateo"),
   ("San Luis Obispo County", "San Luis Obispo"),
   ("Oakland", "Oakland"),
   ("Alameda County", "Alameda"),
   ("Kern County", "Kern"),
   ("San Francisco County", "San Francisco")]

def catalogKeys : List String := city_mappings.map Prod.fst

def canonicalNames : List String := city_mappings.map Prod.snd

def lookupExact (name : String) : Option String :=
  (city_mappings.find? (fun p => p.1 == name)).map Prod.snd

/- ========== fuzzywuzzy model ========== -/

def processChar (c : Char) : Char := if c.isAlphanum then c.toLower else ' '

def stripSpaces (l : List Char) : List Char :=
  ((l.dropWhile (fun c => c = ' ')).reverse.dropWhile (fun c => c = ' ')).reverse

def fullProcess (s : String) : String := String.mk (stripSpaces (s.data.map processChar))

def indelGo (x : Char) : List Char → List Nat → Nat → Nat → List Nat
  | [], _, _, _ => []
  | _ :: _, [], _, _ => []
  | y :: ys, p :: ps, diag, left =>
    let cur := if x = y then diag else 1 + min p left
    cur :: indelGo x ys ps p cur

def indelStep (x : Char) (ys : List Char) (prev : List Nat) (i1 : Nat) : List Nat :=
  i1 :: indelGo x ys prev.tail (prev.headD 0) i1

def indelRows (xs ys : List Char) : List Nat :=
  (xs.foldl (fun st x => (indelStep x ys st.1 st.2, st.2 + 1)) (List.range (ys.length + 1), 1)).1

def indelDist (xs ys : List Char) : Nat := (indelRows xs ys).getLastD 0

def pyRound (n d : Nat) : Nat :=
  let q := n / d
  let r := n % d
  if 2 * r < d then q
  else if d < 2 * r then q + 1
  else if q % 2 = 0 then q else q + 1

def fuzzRatio (s1 s2 : String) : Nat :=
  let T := s1.length + s2.length
  if T = 0 then 100
  else pyRound (100 * (T - indelDist s1.data s2.data)) T

def extractFold (sim : String → String → Nat) (pq : String) :
    List String → String × Nat → String × Nat
  | [], best => best
  | k :: ks, best =>
    extractFold sim pq ks
      (if best.2 < sim pq (fullProcess k) then (k, sim pq (fullProcess k)) else best)

def extractOne (sim : String → String → Nat) (query : String) (choices : List String) :
    Option (String × Nat) :=
  match choices with
  | [] => none
  | c :: cs =>
    some (extractFold sim (fullProcess query) cs (c, sim (fullProcess query) (fullProcess c)))

/- ========== Name Resolver (standardize_city, main.py lines 204-227) ========== -/

def fuzzyResolve (sim : String → String → Nat) (c : String) : Option String :=
  match extractOne sim c catalogKeys with
  | none => some c
  | some ms => if 80 ≤ ms.2 then lookupExact ms.1 else some c

def standardizeCityWith (sim : String → String → Nat) (city : Option String) : Option String :=
  match city with
  | none => none
  | some c =>
    if c = "" then none
    else
      match lookupExact c with
      | some std => some std
      | none => fuzzyResolve sim c

def standardize_city : Option String → Option String := standardizeCityWith fuzzRatio

/- ========== Python float model ========== -/

inductive PF where
  | nan : PF
  | val : ℝ → PF

noncomputable def PF.add : PF → PF → PF
  | PF.val a, PF.val b => PF.val (a + b)
  | PF.nan, _ => PF.nan
  | PF.val _, PF.nan => PF.nan

noncomputable def PF.sub : PF → PF → PF
  | PF.val a, PF.val b => PF.val (a - b)
  | PF.nan, _ => PF.nan
  | PF.val _, PF.nan => PF.nan

noncomputable def PF.mul : PF → PF → PF
  | PF.val a, PF.val b => PF.val (a * b)
  | PF.nan, _ => PF.nan
  | PF.val _, PF.nan => PF.nan

noncomputable def PF.div : PF → PF → PF
  | PF.val a, PF.val b => if b = 0 then PF.nan else PF.val (a / b)
  | PF.nan, _ => PF.nan
  | PF.val _, PF.nan => PF.nan

noncomputable def PF.pymax0 : PF → PF
  | PF.nan => PF.val 0
  | PF.val a => if 0 < a then PF.val a else PF.val 0

noncomputable def PF.sin : PF → PF
  | PF.nan => PF.nan
  | PF.val a => PF.val (Real.sin a)

noncomputable def PF.cos : PF → PF
  | PF.nan => PF.nan
  | PF.val a => PF.val (Real.cos a)

noncomputable def PF.asin : PF → PF
  | PF.nan => PF.nan
  | PF.val a => PF.val (Real.arcsin a)

noncomputable def PF.sqrt : PF → PF
  | PF.nan => PF.nan
  | PF.val a => PF.val (Real.sqrt a)

noncomputable def PF.radians : PF → PF
  | PF.nan => PF.nan
  | PF.val a => PF.val (a * (Real.pi / 180))

def PF.isna : PF → Bool
  | PF.nan => true
  | PF.val _ => false

/- ========== Feature Scorer (main.py lines 237-333) ========== -/

/-- Record carrying the fields of a raw power-plant row that the transform stage
inspects; every other source field is carried through untouched and is omitted. -/
structure RawRecord where
  plantCode : Option String
  state : Option String
  latitude : PF
  longitude : PF
  capacity : PF
  zoningType : Option String

noncomputable def TARGET_LAT : ℝ := 37.7749

noncomputable def TARGET_LON : ℝ := -122.4194

noncomputable def haversineDistance (lat1 lon1 lat2 lon2 : PF) : PF :=
  let rlon1 := lon1.radians
  let rlat1 := lat1.radians
  let rlon2 := lon2.radians
  let rlat2 := lat2.radians
  let dlon := rlon2.sub rlon1
  let dlat := rlat2.sub rlat1
  let a := PF.add
    (PF.mul (dlat.div (PF.val 2)).sin (dlat.div (PF.val 2)).sin)
    (PF.mul (PF.mul rlat1.cos rlat2.cos)
      (PF.mul (dlon.div (PF.val 2)).sin (dlon.div (PF.val 2)).sin))
  let c := PF.mul (PF.val 2) a.sqrt.asin
  PF.mul c (PF.val 6371)

noncomputable def proximityScoreOf (d : PF) : PF :=
  ((PF.val 1).sub (d.div (PF.val 500))).pymax0

noncomputable def zoning_scores : List (String × ℝ) :=
  [("Industrial", 1), ("Commercial", 0.7), ("Agricultural", 0.4), ("Residential", 0.2)]

noncomputable def zoningFavorability (z : Option String) : PF :=
  match z with
  | none => PF.val 0.5
  | some s =>
    match (zoning_scores.find? (fun p => p.1 == s)).map Prod.snd with
    | some v => PF.val v
    | none => PF.val 0.5

noncomputable def PF.maxOp : PF → PF → PF
  | PF.nan, y => y
  | PF.val a, PF.nan => PF.val a
  | PF.val a, PF.val b => PF.val (max a b)

noncomputable def PF.minOp : PF → PF → PF
  | PF.nan, y => y
  | PF.val a, PF.nan => PF.val a
  | PF.val a, PF.val b => PF.val (min a b)

noncomputable def seriesMax (xs : List PF) : PF := xs.foldl PF.maxOp PF.nan

noncomputable def seriesMin (xs : List PF) : PF := xs.foldl PF.minOp PF.nan

/-- Round-half-to-even on a real number, the rounding used by the Python round
builtin and by pandas Series.round. -/
noncomputable def roundHalfEven (x : ℝ) : ℤ :=
  if x - Int.floor x < 1 / 2 then Int.floor x
  else if (1 : ℝ) / 2 < x - Int.floor x then Int.floor x + 1
  else if Even (Int.floor x) then Int.floor x else Int.floor x + 1

noncomputable def roundTo3 (x : ℝ) : ℝ := ((roundHalfEven (1000 * x) : ℤ) : ℝ) / 1000

noncomputable def PF.round3 : PF → PF
  | PF.nan => PF.nan
  | PF.val a => PF.val (roundTo3 a)

noncomputable def W_PROXIMITY : ℝ := 0.40

noncomputable def W_ZONING : ℝ := 0.35

noncomputable def W_CAPACITY : ℝ := 0.25

noncomputable def compositeScore (p z c : PF) : PF :=
  PF.round3 (PF.add (PF.add (PF.mul (PF.val W_PROXIMITY) p) (PF.mul (PF.val W_ZONING) z))
    (PF.mul (PF.val W_CAPACITY) c))

def capsCol (rows : List RawRecord) : List PF := rows.map (fun r => r.capacity)

noncomputable def proximityKmCol (rows : List RawRecord) : List PF :=
  rows.map (fun r =>
    haversineDistance r.latitude r.longitude (PF.val TARGET_LAT) (PF.val TARGET_LON))

noncomputable def proximityScoreCol (rows : List RawRecord) : List PF :=
  (proximityKmCol rows).map proximityScoreOf

noncomputable def zoningCol (rows : List RawRecord) : List PF :=
  rows.map (fun r => zoningFavorability r.zoningType)

noncomputable def capNormWith (mn mx : PF) (rows : List RawRecord) : List PF :=
  (capsCol rows).map (fun c => (c.sub mn).div (mx.sub mn))

noncomputable def capacityNormalizedCol (rows : List RawRecord) : List PF :=
  capNormWith (seriesMin (capsCol rows)) (seriesMax (capsCol rows)) rows

noncomputable def compositeCol (ps zs cs : List PF) : List PF :=
  List.zipWith (fun p zc => compositeScore p zc.1 zc.2) ps (List.zip zs cs)

noncomputable def siteScoreCol (rows : List RawRecord) : List PF :=
  compositeCol (proximityScoreCol rows) (zoningCol rows) (capacityNormalizedCol rows)

/-- Per-record scoring function of a record together with the batch-wide
normalization statistics; claim C5 proves the batch scorer factors through it. -/
noncomputable def scoreRecordPure (mn mx : PF) (r : RawRecord) : PF :=
  compositeScore
    (proximityScoreOf
      (haversineDistance r.latitude r.longitude (PF.val TARGET_LAT) (PF.val TARGET_LON)))
    (zoningFavorability r.zoningType)
    ((r.capacity.sub mn).div (mx.sub mn))

/- ========== Cleanup (_clean_data, main.py lines 335-373) ========== -/

def hasMandatory (r : RawRecord) : Bool :=
  r.plantCode.isSome && !r.capacity.isna && r.state.isSome

def cleanData (rows : List RawRecord) : List RawRecord := rows.filter hasMandatory

/-- Concrete degenerate-batch record used by the claim C1 evaluation. -/
noncomputable def degRecord : RawRecord :=
  { plantCode := some "P100"
    state := some "CA"
    latitude := PF.val 37
    longitude := PF.val (-122)
    capacity := PF.val 100
    zoningType := some "Industrial" }

theorem PF.add_nan : ∀ x : PF, PF.add x PF.nan = PF.nan := by
  intro x; cases x <;> rfl

theorem PF.mul_nan : ∀ x : PF, PF.mul x PF.nan = PF.nan := by
  intro x; cases x <;> rfl

theorem PF.sub_nan : ∀ x : PF, PF.sub x PF.nan = PF.nan := by
  intro x; cases x <;> rfl

theorem PF.div_nan : ∀ x : PF, PF.div x PF.nan = PF.nan := by
  intro x; cases x <;> rfl

theorem PF.nan_add (x : PF) : PF.add PF.nan x = PF.nan := rfl

theorem PF.nan_sub (x : PF) : PF.sub PF.nan x = PF.nan := rfl

theorem PF.nan_mul (x : PF) : PF.mul PF.nan x = PF.nan := rfl

theorem PF.nan_div (x : PF) : PF.div PF.nan x = PF.nan := rfl

theorem PF.radians_nan : PF.radians PF.nan = PF.nan := rfl

theorem PF.radians_val (a : ℝ) : PF.radians (PF.val a) = PF.val (a * (Real.pi / 180)) := rfl

theorem PF.sin_nan : PF.sin PF.nan = PF.nan := rfl

theorem PF.cos_nan : PF.cos PF.nan = PF.nan := rfl

theorem PF.sqrt_nan : PF.sqrt PF.nan = PF.nan := rfl

theorem PF.asin_nan : PF.asin PF.nan = PF.nan := rfl

theorem PF.val_sub_val (a b : ℝ) : PF.sub (PF.val a) (PF.val b) = PF.val (a - b) := rfl

/- ========== Resolver lemmas ========== -/

theorem lookupExact_empty : lookupExact "" = none := by decide

theorem lookupExact_isSome_of_key : ∀ k ∈ catalogKeys, (lookupExact k).isSome = true := by
  decide

theorem extractFold_fst (sim : String → String → Nat) (pq : String) :
    ∀ (ks : List String) (best : String × Nat),
      (extractFold sim pq ks best).1 = best.1 ∨ (extractFold sim pq ks best).1 ∈ ks := by
  intro ks
  induction ks with
  | nil => intro best; exact Or.inl rfl
  | cons k ks ih =>
    intro best
    simp only [extractFold]
    by_cases hc : best.2 < sim pq (fullProcess k)
    · rw [if_pos hc]
      rcases ih (k, sim pq (fullProcess k)) with h | h
      · exact Or.inr (by simp [h])
      · exact Or.inr (List.mem_cons_of_mem _ h)
    · rw [if_neg hc]
      rcases ih best with h | h
      · exact Or.inl h
      · exact Or.inr (List.mem_cons_of_mem _ h)

theorem extractFold_snd (sim : String → String → Nat) (pq : String) :
    ∀ (ks : List String) (best : String × Nat),
      best.2 = sim pq (fullProcess best.1) →
      (extractFold sim pq ks best).2 = sim pq (fullProcess (extractFold sim pq ks best).1) := by
  intro ks
  induction ks with
  | nil => intro best h; exact h
  | cons k ks ih =>
    intro best h
    simp only [extractFold]
    apply ih
    by_cases hc : best.2 < sim pq (fullProcess k)
    · rw [if_pos hc]
    · rw [if_neg hc]; exact h

theorem extractFold_ge_init (sim : String → String → Nat) (pq : String) :
    ∀ (ks : List String) (best : String × Nat),
      best.2 ≤ (extractFold sim pq ks best).2 := by
  intro ks
  induction ks with
  | nil => intro best; exact Nat.le_refl _
  | cons k ks ih =>
    intro best
    simp only [extractFold]
    refine Nat.le_trans ?_ (ih _)
    by_cases hc : best.2 < sim pq (fullProcess k)
    · rw [if_pos hc]; exact Nat.le_of_lt hc
    · rw [if_neg hc]

theorem extractFold_ge_mem (sim : String → String → Nat) (pq : String) :
    ∀ (ks : List String) (best : String × Nat), ∀ k ∈ ks,
      sim pq (fullProcess k) ≤ (extractFold sim pq ks best).2 := by
  intro ks
  induction ks with
  | nil => intro best k hk; cases hk
  | cons k0 ks ih =>
    intro best k hk
    simp only [extractFold]
    rcases List.mem_cons.mp hk with h | h
    · subst h
      refine Nat.le_trans ?_ (extractFold_ge_init sim pq ks _)
      by_cases hc : best.2 < sim pq (fullProcess k)
      · rw [if_pos hc]
      · rw [if_neg hc]; exact Nat.le_of_not_lt hc
    · exact ih _ k h

theorem extractOne_cons_spec (sim : String → String → Nat) (q c : String) (cs : List String) :
    ∃ b s, extractOne sim q (c :: cs) = some (b, s) ∧ b ∈ c :: cs ∧
      s = sim (fullProcess q) (fullProcess b) ∧
      ∀ k ∈ c :: cs, sim (fullProcess q) (fullProcess k) ≤ s := by
  refine ⟨(extractFold sim (fullProcess q) cs (c, sim (fullProcess q) (fullProcess c))).1,
          (extractFold sim (fullProcess q) cs (c, sim (fullProcess q) (fullProcess c))).2,
          rfl, ?_, ?_, ?_⟩
  · rcases extractFold_fst sim (fullProcess q) cs
      (c, sim (fullProcess q) (fullProcess c)) with h | h
    · rw [h]; exact List.mem_cons_self _ _
    · exact List.mem_cons_of_mem _ h
  · exact extractFold_snd sim (fullProcess q) cs
      (c, sim (fullProcess q) (fullProcess c)) rfl
  · intro k hk
    rcases List.mem_cons.mp hk with h | h
    · subst h
      exact extractFold_ge_init sim (fullProcess q) cs
        (k, sim (fullProcess q) (fullProcess k))
    · exact extractFold_ge_mem sim (fullProcess q) cs _ k h

/- ========== Claim theorems: resolver ========== -/

/-- Claim C8: resolving a missing (null) raw place name returns null, and resolving
the empty string returns null as well; both are normal outcomes of standardize_city,
not errors. -/
theorem resolve_null_and_empty :
    standardize_city none = none ∧ standardize_city (some "") = none := by
  constructor
  · rfl
  · decide

/-- Claim C2: every canonical name in the value set of city_mappings is a fixed
point of the resolver: standardize_city maps it to itself, whether it is an exact
catalog key (San Francisco, San Mateo, Oakland), resolved through the fuzzy path
(San Luis Obispo matches the variant San Luis Obispo County at score 81), or passed
through unchanged because no variant reaches the threshold (Alameda, Kern). -/
theorem canonical_names_fixed_point :
    ∀ c ∈ canonicalNames, standardize_city (some c) = some c := by
  decide

theorem canonical_names_fixed_point_witness :
    "San Luis Obispo" ∈ canonicalNames ∧
      standardize_city (some "San Luis Obispo") = some "San Luis Obispo" :=
  ⟨by decide, canonical_names_fixed_point "San Luis Obispo" (by decide)⟩

/-- Claim C3: a raw name that occurs verbatim (case-sensitively) as a catalog key
resolves to the canonical name the catalog maps it to, and the approximate-matching
step is never consulted: the result is the same for every similarity function sim,
because the exact-lookup branch of standardize_city returns before any fuzzy work. -/
theorem exact_lookup_wins :
    ∀ (sim : String → String → Nat) (r v : String),
      lookupExact r = some v → standardizeCityWith sim (some r) = some v := by
  intro sim r v h
  have hne : r ≠ "" := by
    intro he
    rw [he, lookupExact_empty] at h
    cases h
  simp only [standardizeCityWith, if_neg hne, h]

theorem exact_lookup_wins_witness :
    lookupExact "SF" = some "San Francisco" ∧
      standardizeCityWith (fun _ _ => 0) (some "SF") = some "San Francisco" :=
  ⟨by decide, exact_lookup_wins (fun _ _ => 0) "SF" "San Francisco" (by decide)⟩

theorem pyRound_le (n d k : Nat) (hd : 0 < d) (h : n ≤ k * d) : pyRound n d ≤ k := by
  have hlt : n < (k + 1) * d := by
    rw [Nat.succ_mul]
    exact Nat.lt_of_le_of_lt h (Nat.lt_add_of_pos_right hd)
  have hq : n / d ≤ k := Nat.lt_succ_iff.mp ((Nat.div_lt_iff_lt_mul hd).mpr hlt)
  have hqr : d * (n / d) + n % d = n := Nat.div_add_mod n d
  have hstep : 0 < n % d → n / d + 1 ≤ k := by
    intro hr
    have hmul : d * (n / d) < d * k := by
      calc d * (n / d) < d * (n / d) + n % d := Nat.lt_add_of_pos_right hr
        _ = n := hqr
        _ ≤ k * d := h
        _ = d * k := Nat.mul_comm k d
    exact Nat.succ_le_of_lt (Nat.lt_of_mul_lt_mul_left hmul)
  simp only [pyRound]
  split_ifs with h1 h2 h3
  · exact hq
  · exact hstep (by omega)
  · exact hq
  · exact hstep (by omega)

theorem fuzzRatio_le_100 (a b : String) : fuzzRatio a b ≤ 100 := by
  simp only [fuzzRatio]
  split_ifs with hT
  · exact Nat.le_refl 100
  · exact pyRound_le _ _ _ (Nat.pos_of_ne_zero hT)
      (Nat.mul_le_mul_left 100 (Nat.sub_le _ _))

/-- Claim C7: for a non-null, non-empty raw name that is not an exact catalog key,
the resolver computes a similarity score for every catalog variant (each score is
bounded by 100, and being a Nat it is at least 0), selects a variant whose score is
maximal over all variants, and returns the canonical mapping of that variant when the
best score is at least 80, otherwise the raw name itself; the result is never null
and no error path exists. -/
theorem fuzzy_fallback_spec :
    (∀ a b : String, fuzzRatio a b ≤ 100) ∧
    ∀ r : String, r ≠ "" → lookupExact r = none →
      ∃ b s, extractOne fuzzRatio r catalogKeys = some (b, s) ∧
        b ∈ catalogKeys ∧
        s = fuzzRatio (fullProcess r) (fullProcess b) ∧
        (∀ k ∈ catalogKeys, fuzzRatio (fullProcess r) (fullProcess k) ≤ s) ∧
        standardize_city (some r) = (if 80 ≤ s then lookupExact b else some r) ∧
        standardize_city (some r) ≠ none := by
  constructor
  · exact fuzzRatio_le_100
  · intro r hne hlk
    have hck : catalogKeys =
        "SF" :: ["San Francisco", "San Mateo", "San Mateo County", "San Luis Obispo County",
                 "Oakland", "Alameda County", "Kern County", "San Francisco County"] := rfl
    obtain ⟨b, s, heq, hmem, hs, hub⟩ :=
      extractOne_cons_spec fuzzRatio r "SF"
        ["San Francisco", "San Mateo", "San Mateo County", "San Luis Obispo County",
         "Oakland", "Alameda County", "Kern County", "San Francisco County"]
    have hmem' : b ∈ catalogKeys := by rw [hck]; exact hmem
    have heq' : extractOne fuzzRatio r catalogKeys = some (b, s) := by rw [hck]; exact heq
    have hstd : standardize_city (some r) = (if 80 ≤ s then lookupExact b else some r) := by
      simp only [standardize_city, standardizeCityWith, if_neg hne, hlk, fuzzyResolve, heq']
    refine ⟨b, s, heq', hmem', hs, ?_, hstd, ?_⟩
    · intro k hk
      rw [hck] at hk
      exact hub k hk
    · rw [hstd]
      by_cases hc : 80 ≤ s
      · rw [if_pos hc]
        have hsome := lookupExact_isSome_of_key b hmem'
        intro hnone
        rw [hnone] at hsome
        cases hsome
      · rw [if_neg hc]
        simp

theorem fuzzy_fallback_spec_witness :
    (("Berkeley" : String) ≠ "") ∧ lookupExact "Berkeley" = none ∧
      (∃ b s, extractOne fuzzRatio "Berkeley" catalogKeys = some (b, s) ∧
        b ∈ catalogKeys ∧
        s = fuzzRatio (fullProcess "Berkeley") (fullProcess b) ∧
        (∀ k ∈ catalogKeys, fuzzRatio (fullProcess "Berkeley") (fullProcess k) ≤ s) ∧
        standardize_city (some "Berkeley") =
          (if 80 ≤ s then lookupExact b else some "Berkeley") ∧
        standardize_city (some "Berkeley") ≠ none) :=
  ⟨by decide, by decide, fuzzy_fallback_spec.2 "Berkeley" (by decide) (by decide)⟩

/- ========== Claim theorems: scorer ========== -/

/-- Claim C1 evaluation: in a batch whose records all share one capacity value the
capacity-normalized column of the scorer is NaN for every record, because the
batch-wide normalization is the float division 0/0; it is not any real fallback
constant.  No exception path exists: the NaN is produced silently and flows into
the composite score. -/
theorem degenerate_batch_capacity_nan :
    capacityNormalizedCol [degRecord, degRecord] = [PF.nan, PF.nan] ∧
    PF.isna PF.nan = true ∧ ∀ q : ℝ, PF.isna (PF.val q) = false := by
  refine ⟨?_, rfl, fun q => rfl⟩
  simp [capacityNormalizedCol, capNormWith, capsCol, seriesMin, seriesMax, degRecord,
    PF.minOp, PF.maxOp, PF.sub, PF.div]

/-- Claim C9: the cleanup step keeps exactly the records that have all three
mandatory fields (plant code, capacity, state) and drops exactly those missing one
of them; a malformed record only disappears from the output, the remaining records
of the batch are still processed in order (the output is a sublist of the input),
and no failure path exists. -/
theorem clean_data_spec :
    (∀ (rows : List RawRecord) (r : RawRecord),
        r ∈ cleanData rows ↔ r ∈ rows ∧ hasMandatory r = true) ∧
    (∀ (r : RawRecord) (rows : List RawRecord),
        cleanData (r :: rows) =
          if hasMandatory r then r :: cleanData rows else cleanData rows) ∧
    (∀ rows : List RawRecord, List.Sublist (cleanData rows) rows) ∧
    (∀ r : RawRecord,
        hasMandatory r = (r.plantCode.isSome && !r.capacity.isna && r.state.isSome)) := by
  refine ⟨?_, ?_, ?_, fun r => rfl⟩
  · intro rows r
    exact List.mem_filter
  · intro r rows
    simp [cleanData, List.filter_cons]
  · intro rows
    exact List.filter_sublist rows

theorem roundHalfEven_nonneg (y : ℝ) (hy : 0 ≤ y) : 0 ≤ roundHalfEven y := by
  have hf : (0 : ℤ) ≤ Int.floor y := Int.floor_nonneg.mpr hy
  unfold roundHalfEven
  split_ifs <;> omega

theorem roundHalfEven_le (y : ℝ) (B : ℤ) (hy : y ≤ (B : ℝ)) : roundHalfEven y ≤ B := by
  have hf : Int.floor y ≤ B := by
    have h := Int.floor_le_floor hy
    simpa using h
  have hstep : ((Int.floor y : ℝ) + 1 / 2 ≤ y) → Int.floor y + 1 ≤ B := by
    intro h
    have h3 : ((Int.floor y : ℤ) : ℝ) < (B : ℝ) := by linarith
    have h4 : Int.floor y < B := by exact_mod_cast h3
    omega
  unfold roundHalfEven
  split_ifs with h1 h2 h3
  · exact hf
  · exact hstep (by linarith)
  · exact hf
  · exact hstep (by linarith)

theorem roundTo3_bounds (x : ℝ) (h0 : 0 ≤ x) (h1 : x ≤ 1) :
    0 ≤ roundTo3 x ∧ roundTo3 x ≤ 1 := by
  have hnn : (0 : ℤ) ≤ roundHalfEven (1000 * x) := roundHalfEven_nonneg _ (by linarith)
  have hle : roundHalfEven (1000 * x) ≤ 1000 := by
    apply roundHalfEven_le
    push_cast
    linarith
  unfold roundTo3
  constructor
  · apply div_nonneg _ (by norm_num)
    exact_mod_cast hnn
  · rw [div_le_one (by norm_num)]
    exact_mod_cast hle

/-- Claim C4: for sub-scores each in the unit interval, the composite score is the
weighted sum with the fixed weights 0.40 (proximity), 0.35 (zoning) and 0.25
(capacity), which sum to 1, rounded half-to-even at 3 decimal places, and the
rounded composite again lies in the unit interval. -/
theorem composite_weighted_sum :
    (W_PROXIMITY + W_ZONING + W_CAPACITY = 1) ∧
    ∀ p z c : ℝ, 0 ≤ p → p ≤ 1 → 0 ≤ z → z ≤ 1 → 0 ≤ c → c ≤ 1 →
      compositeScore (PF.val p) (PF.val z) (PF.val c) =
        PF.val (roundTo3 (W_PROXIMITY * p + W_ZONING * z + W_CAPACITY * c)) ∧
      0 ≤ roundTo3 (W_PROXIMITY * p + W_ZONING * z + W_CAPACITY * c) ∧
      roundTo3 (W_PROXIMITY * p + W_ZONING * z + W_CAPACITY * c) ≤ 1 := by
  refine ⟨by norm_num [W_PROXIMITY, W_ZONING, W_CAPACITY], ?_⟩
  intro p z c hp0 hp1 hz0 hz1 hc0 hc1
  have hin0 : 0 ≤ W_PROXIMITY * p + W_ZONING * z + W_CAPACITY * c := by
    unfold W_PROXIMITY W_ZONING W_CAPACITY
    nlinarith [hp0, hz0, hc0]
  have hin1 : W_PROXIMITY * p + W_ZONING * z + W_CAPACITY * c ≤ 1 := by
    unfold W_PROXIMITY W_ZONING W_CAPACITY
    nlinarith [hp1, hz1, hc1]
  obtain ⟨hb0, hb1⟩ := roundTo3_bounds _ hin0 hin1
  exact ⟨by simp [compositeScore, PF.mul, PF.add, PF.round3], hb0, hb1⟩

theorem composite_weighted_sum_witness :
    compositeScore (PF.val 1) (PF.val 1) (PF.val 1) =
      PF.val (roundTo3 (W_PROXIMITY * 1 + W_ZONING * 1 + W_CAPACITY * 1)) ∧
    0 ≤ roundTo3 (W_PROXIMITY * 1 + W_ZONING * 1 + W_CAPACITY * 1) ∧
    roundTo3 (W_PROXIMITY * 1 + W_ZONING * 1 + W_CAPACITY * 1) ≤ 1 :=
  composite_weighted_sum.2 1 1 1 (by norm_num) (by norm_num) (by norm_num) (by norm_num)
    (by norm_num) (by norm_num)

theorem compositeCol_map (f g h : RawRecord → PF) :
    ∀ rows : List RawRecord,
      compositeCol (rows.map f) (rows.map g) (rows.map h) =
        rows.map (fun r => compositeScore (f r) (g r) (h r)) := by
  intro rows
  induction rows with
  | nil => rfl
  | cons r rows ih =>
    show compositeScore (f r) (g r) (h r) ::
        compositeCol (rows.map f) (rows.map g) (rows.map h) =
      compositeScore (f r) (g r) (h r) ::
        rows.map (fun r => compositeScore (f r) (g r) (h r))
    rw [ih]

/-- Claim C5: the scorer is deterministic because the per-record composite score is
a pure function of the record together with the batch-wide capacity statistics
(the min and max of the capacity column): the column-at-a-time computation of the
source factors through scoreRecordPure applied with the batch statistics, so
re-running the scorer on an identical batch reproduces identical scores. -/
theorem scorer_deterministic_pure :
    ∀ rows : List RawRecord,
      siteScoreCol rows =
        rows.map (scoreRecordPure (seriesMin (capsCol rows)) (seriesMax (capsCol rows))) := by
  intro rows
  rw [siteScoreCol, proximityScoreCol, proximityKmCol, List.map_map,
    capacityNormalizedCol, capNormWith, capsCol, List.map_map, zoningCol,
    compositeCol_map]
  rfl

theorem haversine_val_eq (l1 o1 l2 o2 : ℝ) :
    haversineDistance (PF.val l1) (PF.val o1) (PF.val l2) (PF.val o2) =
      PF.val (2 * Real.arcsin (Real.sqrt
        (Real.sin ((l2 * (Real.pi / 180) - l1 * (Real.pi / 180)) / 2) *
           Real.sin ((l2 * (Real.pi / 180) - l1 * (Real.pi / 180)) / 2) +
         Real.cos (l1 * (Real.pi / 180)) * Real.cos (l2 * (Real.pi / 180)) *
           (Real.sin ((o2 * (Real.pi / 180) - o1 * (Real.pi / 180)) / 2) *
            Real.sin ((o2 * (Real.pi / 180) - o1 * (Real.pi / 180)) / 2)))) * 6371) := by
  have h2 : (2 : ℝ) ≠ 0 := by norm_num
  simp only [haversineDistance, PF.radians, PF.sub, PF.div, if_neg h2, PF.sin, PF.cos,
    PF.mul, PF.add, PF.sqrt, PF.asin]

/-- Claim C6: the proximity column applies, to every record, the score
max(0, 1 - d / 500) where d is the haversine great-circle distance (radius 6371 km)
to the fixed San Francisco target; a record at the target scores exactly 1, a
record farther than 500 km scores exactly 0, and the proximity score is a real
number that is never negative for any input, including NaN distances. -/
theorem proximity_score_spec :
    (∀ rows : List RawRecord, proximityScoreCol rows = rows.map (fun r =>
        proximityScoreOf (haversineDistance r.latitude r.longitude
          (PF.val TARGET_LAT) (PF.val TARGET_LON)))) ∧
    (∀ d : PF, proximityScoreOf d = ((PF.val 1).sub (d.div (PF.val 500))).pymax0) ∧
    (proximityScoreOf (haversineDistance (PF.val TARGET_LAT) (PF.val TARGET_LON)
        (PF.val TARGET_LAT) (PF.val TARGET_LON)) = PF.val 1) ∧
    (∀ d : ℝ, 500 < d → proximityScoreOf (PF.val d) = PF.val 0) ∧
    (∀ p : PF, ∃ x : ℝ, proximityScoreOf p = PF.val x ∧ 0 ≤ x) := by
  have h500 : (500 : ℝ) ≠ 0 := by norm_num
  refine ⟨?_, fun d => rfl, ?_, ?_, ?_⟩
  · intro rows
    rw [proximityScoreCol, proximityKmCol, List.map_map]
    rfl
  · rw [haversine_val_eq]
    simp only [sub_self, zero_div, Real.sin_zero, mul_zero, zero_mul, add_zero,
      Real.sqrt_zero, Real.arcsin_zero]
    simp only [proximityScoreOf, PF.div, if_neg h500, PF.sub, PF.pymax0, zero_div]
    norm_num
  · intro d hd
    simp only [proximityScoreOf, PF.div, if_neg h500, PF.sub, PF.pymax0]
    have hneg : ¬ (0 < 1 - d / 500) := by
      have : 1 < d / 500 := (one_lt_div (by norm_num)).mpr hd
      linarith
    rw [if_neg hneg]
  · intro p
    cases p with
    | nan => exact ⟨0, rfl, le_refl 0⟩
    | val a =>
      simp only [proximityScoreOf, PF.div, if_neg h500, PF.sub, PF.pymax0]
      by_cases h : 0 < 1 - a / 500
      · exact ⟨1 - a / 500, by rw [if_pos h], le_of_lt h⟩
      · exact ⟨0, by rw [if_neg h], le_refl 0⟩

theorem proximity_score_spec_witness :
    (500 : ℝ) < 501 ∧ proximityScoreOf (PF.val 501) = PF.val 0 :=
  ⟨by norm_num, proximity_score_spec.2.2.2.1 501 (by norm_num)⟩

/-- Claim C10: a record whose latitude or longitude is NaN gets a NaN haversine
distance, and the Python max(0, 1 - NaN / 500) turns that into proximity score 0
(NaN comparisons are false), so the record is implicitly treated as maximally far;
the scorer still emits a composite score for every record of the batch (the score
column has one entry per input record), skipping and raising nothing. -/
theorem missing_coords_zero_proximity :
    (∀ lat lon : PF, lat = PF.nan ∨ lon = PF.nan →
      haversineDistance lat lon (PF.val TARGET_LAT) (PF.val TARGET_LON) = PF.nan ∧
      proximityScoreOf (haversineDistance lat lon (PF.val TARGET_LAT) (PF.val TARGET_LON)) =
        PF.val 0) ∧
    (∀ rows : List RawRecord, (siteScoreCol rows).length = rows.length) := by
  constructor
  · intro lat lon h
    have hd : haversineDistance lat lon (PF.val TARGET_LAT) (PF.val TARGET_LON) = PF.nan := by
      rcases h with h | h <;> subst h <;>
        simp only [haversineDistance, PF.radians_nan, PF.radians_val, PF.nan_sub,
          PF.sub_nan, PF.val_sub_val, PF.nan_div, PF.div_nan, PF.sin_nan, PF.cos_nan,
          PF.nan_mul, PF.mul_nan, PF.nan_add, PF.add_nan, PF.sqrt_nan, PF.asin_nan]
    refine ⟨hd, ?_⟩
    rw [hd]
    rfl
  · intro rows
    simp [siteScoreCol, compositeCol, List.length_zipWith, List.length_zip,
      proximityScoreCol, proximityKmCol, zoningCol, capacityNormalizedCol, capNormWith,
      capsCol, List.length_map, min_self]

theorem missing_coords_zero_proximity_witness :
    (PF.nan = PF.nan ∨ PF.val 0 = PF.nan) ∧
      (haversineDistance PF.nan (PF.val 0) (PF.val TARGET_LAT) (PF.val TARGET_LON) =
          PF.nan ∧
        proximityScoreOf (haversineDistance PF.nan (PF.val 0) (PF.val TARGET_LAT)
          (PF.val TARGET_LON)) = PF.val 0) :=
  ⟨Or.inl rfl, missing_coords_zero_proximity.1 PF.nan (PF.val 0) (Or.inl rfl)⟩
